import Mathlib

/-! Verification development for the module-loader-tool repository.

The embedding mirrors the source file src/src/manifest-processors.ts, which
contains the ManifestProcessors registry and the ModuleLoaderTool class
(fetchBundleSource, compileSource, loadBundleByManifest, bulkLoadBundles,
start, manuallyDefineBundle, isBundleLoaded).

JavaScript promises run on a single logical thread: the body of
loadBundleByManifest executes synchronously up to returning the registered
promise, and the asynchronous continuations of the chain run later, between
other calls.  The embedding therefore splits a load into a synchronous
registration step (loadBundleByManifest) and the asynchronous continuations
of its chain, which themselves run in two observable phases: compilePhase
covers preprocessor, retrieval, compile and the insertion of the compiled
module into the compiled cache, and postprocessPhase covers the
postprocessor and the final settlement of the load's promise.  The split
matters: between the cache insertion and the settlement there is a real
suspension point in the source (the postprocessor promise), and a load call
arriving in that window hits the cache branch.  settleTask runs both phases
back to back.  Host-supplied behaviour (hook results, fetch results, the
dependency map, the unknown-dependency resolver, the url formatter, the
runner passed to start) is an explicit environment.  Observable effects
(task registration, retrieval, compilation, cache insertion, start-export
invocation, error logging, runner invocation) are recorded in an event
list.
-/

namespace Mlt

/-- Modelled from the spec: the ModuleLoadStrategy enum comes from
./interface, which is not under src/; the source uses the members BLOCK and
IMMEDIATELY, and the spec adds the implicit lazy/on-demand strategy. -/
inductive ModuleLoadStrategy
| block
| immediately
| lazy
deriving DecidableEq, Repr

/-- Modelled from the spec: IBaseModuleManifest comes from ./interface, not
under src/; required attributes are the unique name and the load strategy. -/
structure Manifest where
  name : String
  loadStrategy : ModuleLoadStrategy
deriving DecidableEq, Repr

/-- The exports surface a compiled bundle produced.  The optional start
entry point is identified by a tag so its invocations can be counted; data
stands for whatever else the executed code assigned. -/
structure Exports where
  start : Option String
  data : String
deriving DecidableEq, Repr

/-- Modelled from the spec: CompiledModule comes from ./interface, not under
src/; it exposes an exports container. -/
structure CompiledModule where
  exports : Exports
deriving DecidableEq, Repr

/-- The error classes of the source: LoadBundleError, NoDependencyError,
CompileModuleError and PostprocessorError are imported from ./errors (not
under src/) and carry only a message; genericError stands for a plain
JavaScript Error. -/
inductive JsError
| loadBundleError (msg : String)
| noDependencyError (msg : String)
| compileModuleError (msg : String)
| postprocessorError (msg : String)
| genericError (msg : String)
deriving DecidableEq, Repr

/-- The message carried by an error, as read by error.message in the source. -/
def JsError.message : JsError → String
| .loadBundleError m => m
| .noDependencyError m => m
| .compileModuleError m => m
| .postprocessorError m => m
| .genericError m => m

/-- A dependency object provided by the core application. -/
abbrev Dep := String

/-- The require function built inside compileSource: look the name up in the
dependency map; when absent and an unknown resolver exists, consult it and
throw NoDependencyError when it yields nothing; when absent and no resolver
was configured, the JavaScript code falls through and returns the undefined
dependency (modelled as ok none). -/
def requireImpl (dependencies : String → Option Dep)
    (unknownResolver : Option (String → Option Dep)) (name : String) :
    Except JsError (Option Dep) :=
  match dependencies name with
  | some d => Except.ok (some d)
  | none =>
    match unknownResolver with
    | some resolver =>
      match resolver name with
      | some d => Except.ok (some d)
      | none =>
        Except.error (JsError.noDependencyError
          ("Dependency \"" ++ name ++ "\" does not provided by core application"))
    | none => Except.ok none

/-- The relevant behaviours of a bundle source text under eval: request a
dependency through require, throw at top level, or assign the exports
surface.  A source text is a sequence of these. -/
inductive Stmt
| requireDep (name : String)
| throwErr (msg : String)
| setExports (e : Exports)
deriving DecidableEq, Repr

/-- The result of evaluating a source text: the final exports surface and
the trace of values the require calls delivered to the executed code (some
for a real dependency, none for a silent undefined). -/
structure EvalResult where
  exportsVal : Exports
  received : List (String × Option Dep)
deriving DecidableEq, Repr

/-- Initial module.exports object of compileSource. -/
def emptyExports : Exports := { start := none, data := "" }

/-- Evaluation of a source text with a given require function; an error
thrown by require or by the text itself aborts evaluation. -/
def evalSource (req : String → Except JsError (Option Dep)) :
    List Stmt → Exports → List (String × Option Dep) → Except JsError EvalResult
| [], ex, rec => Except.ok { exportsVal := ex, received := rec }
| Stmt.requireDep n :: rest, ex, rec =>
  match req n with
  | Except.error e => Except.error e
  | Except.ok v => evalSource req rest ex (rec ++ [(n, v)])
| Stmt.throwErr m :: _, _, _ => Except.error (JsError.genericError m)
| Stmt.setExports e :: rest, _, rec => evalSource req rest e rec

/-- compileSource of the source file: build require from the dependency map
and the unknown resolver, evaluate the text, and wrap any error thrown
inside the evaluation (including a NoDependencyError thrown by require) into
CompileModuleError carrying the underlying message, exactly as the
try/catch around eval does. -/
def compileSource (source : List Stmt) (dependencies : String → Option Dep)
    (unknownResolver : Option (String → Option Dep)) :
    Except JsError CompiledModule :=
  match evalSource (requireImpl dependencies unknownResolver) source emptyExports [] with
  | Except.error ex =>
    Except.error (JsError.compileModuleError ("Cant compile module: " ++ JsError.message ex))
  | Except.ok r => Except.ok { exports := r.exportsVal }

/-- Observable events of the orchestrator. -/
inductive Event
| runnerInvoked
| loadStarted (name : String)
| retrievalStarted (name : String)
| compileStarted (name : String)
| moduleCached (name : String)
| startInvoked (tag : String)
| errorLogged (msg : String)
deriving DecidableEq, Repr

/-- Number of occurrences of an event in a trace. -/
def ecount (es : List Event) (e : Event) : Nat :=
  (es.filter (fun x => decide (x = e))).length

/-- A registered load task: pending until its chain runs; postprocessing
once the compiled module has been written to the compiled cache but the
postprocessor has not yet settled the load's promise (the suspension window
after line 291 of the source); settled with the value the promise resolved
to (none when the top-level catch swallowed a failure). -/
inductive TaskState
| pending
| postprocessing (mod : CompiledModule)
| settled (outcome : Option CompiledModule)
deriving DecidableEq, Repr

/-- What loadBundleByManifest hands back to its caller: a fresh
already-resolved promise (the bundlesCache branch) or the shared promise
registered in loadersCache, identified by its task id. -/
inductive LoadRef
| resolved (r : Option CompiledModule)
| task (id : Nat)
deriving DecidableEq, Repr

/-- Host-supplied behaviour consumed during loads.  The pre- and
postprocessor results abstract the aggregate outcome of the
ManifestProcessors registry dispatch for a manifest; fetchResult gives the
outcome of fetchBundleSource at a url (an http status of 400 or more is a
LoadBundleError); the source text is modelled as a Stmt list. -/
structure Env where
  preprocessorResult : Manifest → Except JsError Unit
  urlFormatter : Manifest → String
  fetchResult : String → Except JsError (List Stmt)
  postprocessorResult : Manifest → CompiledModule → Except JsError Unit
  dependencies : String → Option Dep
  unknownDependencyResolver : Option (String → Option Dep)
  runnerResult : Except JsError Unit

/-- State of one ModuleLoaderTool instance: the manifest list, the compiled
cache (bundlesCache), the in-flight cache (loadersCache, mapping a name to
its task id), the task table, a fresh-id counter, the event trace, and the
lists published to the BehaviorSubject subscribers. -/
structure MLT where
  bundlesList : List Manifest
  bundlesCache : String → Option CompiledModule
  loaders : String → Option Nat
  tasks : Nat → Option (Manifest × TaskState)
  nextId : Nat
  events : List Event
  published : List (List Manifest)

/-- Freshly constructed orchestrator. -/
def initState : MLT :=
  { bundlesList := []
    bundlesCache := fun _ => none
    loaders := fun _ => none
    tasks := fun _ => none
    nextId := 0
    events := []
    published := [] }

/-- isBundleLoaded of the source: truthiness of bundlesCache at the name. -/
def isBundleLoaded (st : MLT) (bundleName : String) : Bool :=
  (st.bundlesCache bundleName).isSome

/-- The synchronous body of loadBundleByManifest: return the cached module
as a fresh resolved promise; otherwise return the registered in-flight
promise; otherwise register a new pending task under the name (this
check-and-insert runs with no suspension point in between, so no other call
can interleave) and return it. -/
def loadBundleByManifest (st : MLT) (manifest : Manifest) : MLT × LoadRef :=
  match st.bundlesCache manifest.name with
  | some mod => (st, LoadRef.resolved (some mod))
  | none =>
    match st.loaders manifest.name with
    | some id => (st, LoadRef.task id)
    | none =>
      ({ st with
          loaders := fun k => if k = manifest.name then some st.nextId else st.loaders k
          tasks := fun i => if i = st.nextId then some (manifest, TaskState.pending) else st.tasks i
          nextId := st.nextId + 1
          events := st.events ++ [Event.loadStarted manifest.name] },
       LoadRef.task st.nextId)

/-- Result of running the whole promise chain of one load before the
top-level catch: the events it emitted, the cache insertion it performed,
and the value or error it produced.  This is the declarative summary of a
load; the operational steps are compilePhase and postprocessPhase below. -/
structure LoadAttempt where
  evs : List Event
  cacheUpd : Option CompiledModule
  result : Except JsError CompiledModule

/-- The chain runPreprocessors, then fetchBundleSource at the formatted url,
then compileSource, then cache insertion, then runPostprocessors; a
postprocessor failure is replaced by PostprocessorError with the fixed
message of the source.  The cache insertion precedes the postprocessor, so
it happens even when the postprocessor then fails. -/
def attemptLoad (env : Env) (manifest : Manifest) : LoadAttempt :=
  match env.preprocessorResult manifest with
  | Except.error e => { evs := [], cacheUpd := none, result := Except.error e }
  | Except.ok _ =>
    match env.fetchResult (env.urlFormatter manifest) with
    | Except.error e =>
      { evs := [Event.retrievalStarted manifest.name], cacheUpd := none
        result := Except.error e }
    | Except.ok source =>
      match compileSource source env.dependencies env.unknownDependencyResolver with
      | Except.error e =>
        { evs := [Event.retrievalStarted manifest.name, Event.compileStarted manifest.name]
          cacheUpd := none, result := Except.error e }
      | Except.ok mod =>
        match env.postprocessorResult manifest mod with
        | Except.ok _ =>
          { evs := [Event.retrievalStarted manifest.name, Event.compileStarted manifest.name,
                    Event.moduleCached manifest.name]
            cacheUpd := some mod, result := Except.ok mod }
        | Except.error _ =>
          { evs := [Event.retrievalStarted manifest.name, Event.compileStarted manifest.name,
                    Event.moduleCached manifest.name]
            cacheUpd := some mod
            result := Except.error (JsError.postprocessorError "Postprocessor crashed") }

/-- The settled value after the top-level catch: the module on success, an
absent result (never a rejection) on failure. -/
def settleOutcome : Except JsError CompiledModule → Option CompiledModule
| Except.ok mod => some mod
| Except.error _ => none

/-- The console.error emission of the top-level catch of
loadBundleByManifest. -/
def settleErrEvents (manifest : Manifest) : Except JsError CompiledModule → List Event
| Except.ok _ => []
| Except.error e =>
  [Event.errorLogged ("Module: " ++ manifest.name ++ ". Error: " ++ JsError.message e)]

/-- Result of the first asynchronous phase of a load (preprocessor,
retrieval, compile, cache insertion): the events it emits, the cache write
it performs when the compile succeeded, and the task state it leaves the
load in — settled absent when some step before the cache write failed (with
the top-level catch having logged it), or postprocessing when the module is
now in the compiled cache with the postprocessor still outstanding. -/
def compileOutcome (env : Env) (manifest : Manifest) :
    List Event × Option CompiledModule × TaskState :=
  match env.preprocessorResult manifest with
  | Except.error e =>
    (settleErrEvents manifest (Except.error e), none, TaskState.settled none)
  | Except.ok _ =>
    match env.fetchResult (env.urlFormatter manifest) with
    | Except.error e =>
      ([Event.retrievalStarted manifest.name] ++ settleErrEvents manifest (Except.error e),
       none, TaskState.settled none)
    | Except.ok source =>
      match compileSource source env.dependencies env.unknownDependencyResolver with
      | Except.error e =>
        ([Event.retrievalStarted manifest.name, Event.compileStarted manifest.name]
           ++ settleErrEvents manifest (Except.error e),
         none, TaskState.settled none)
      | Except.ok mod =>
        ([Event.retrievalStarted manifest.name, Event.compileStarted manifest.name,
          Event.moduleCached manifest.name],
         some mod, TaskState.postprocessing mod)

/-- Run the first phase of a registered pending task: up to and including
the write of the compiled module into the compiled cache (line 291 of the
source), which happens before the postprocessor settles the load.  A task
that is not pending is left alone. -/
def compilePhase (env : Env) (st : MLT) (id : Nat) : MLT :=
  match st.tasks id with
  | some (manifest, TaskState.pending) =>
    { st with
      events := st.events ++ (compileOutcome env manifest).1
      bundlesCache :=
        match (compileOutcome env manifest).2.1 with
        | some mod => fun k => if k = manifest.name then some mod else st.bundlesCache k
        | none => st.bundlesCache
      tasks := fun i =>
        if i = id then some (manifest, (compileOutcome env manifest).2.2) else st.tasks i }
  | _ => st

/-- Run the second phase of a load whose module is cached with the
postprocessor outstanding: the postprocessor settles the promise with the
module, or fails, is re-signaled as PostprocessorError, and the top-level
catch logs it and settles the promise absent — the cache write of the first
phase stays.  A task not in the postprocessing state is left alone. -/
def postprocessPhase (env : Env) (st : MLT) (id : Nat) : MLT :=
  match st.tasks id with
  | some (manifest, TaskState.postprocessing mod) =>
    match env.postprocessorResult manifest mod with
    | Except.ok _ =>
      { st with
        tasks := fun i =>
          if i = id then some (manifest, TaskState.settled (some mod)) else st.tasks i }
    | Except.error _ =>
      { st with
        events := st.events ++ settleErrEvents manifest
          (Except.error (JsError.postprocessorError "Postprocessor crashed"))
        tasks := fun i =>
          if i = id then some (manifest, TaskState.settled none) else st.tasks i }
  | _ => st

/-- Run a registered task all the way to settlement: both phases back to
back; a task that is absent or already settled is left alone (a promise
chain runs once). -/
def settleTask (env : Env) (st : MLT) (id : Nat) : MLT :=
  postprocessPhase env (compilePhase env st id) id

/-- The value a caller holding a load reference reads once everything has
settled. -/
def observe (st : MLT) : LoadRef → Option CompiledModule
| LoadRef.resolved r => r
| LoadRef.task id =>
  match st.tasks id with
  | some (_, TaskState.settled o) => o
  | _ => none

/-- Phase one of bulkLoadBundles: the map over the filtered list calls
loadBundleByManifest on every manifest synchronously, collecting the
references. -/
def registerAll (st : MLT) : List Manifest → MLT × List LoadRef
| [] => (st, [])
| m :: rest =>
  let p := loadBundleByManifest st m
  let q := registerAll p.1 rest
  (q.1, p.2 :: q.2)

/-- Phase two: every registered chain runs to settlement (Promise.all waits
for all of them). -/
def settleAll (env : Env) (st : MLT) : List LoadRef → MLT
| [] => st
| LoadRef.task id :: rest => settleAll env (settleTask env st id) rest
| LoadRef.resolved _ :: rest => settleAll env st rest

/-- The start-export invocations the Promise.all continuation performs: one
per settled outcome that is a module whose exports carry start. -/
def startTags (outs : List (Option CompiledModule)) : List Event :=
  outs.filterMap (fun o =>
    match o with
    | some mod => (mod.exports.start).map (fun t => Event.startInvoked t)
    | none => none)

/-- Phase three: the forEach over the settled bundles invoking the start
exports. -/
def invokeStarts (st : MLT) (outs : List (Option CompiledModule)) : MLT :=
  { st with events := st.events ++ startTags outs }

/-- bulkLoadBundles of the source: register all loads of the filtered
manifest list, let them settle, then invoke the start exports of the
settled outcomes. -/
def bulkLoadBundles (env : Env) (st : MLT) (filterFn : Manifest → Bool) : MLT :=
  let p := registerAll st (st.bundlesList.filter filterFn)
  let st2 := settleAll env p.1 p.2
  invokeStarts st2 (p.2.map (observe st2))

/-- The settled outcomes a bulk pass observes, named so theorems can count
the start invocations it performs. -/
def bulkOutcomes (env : Env) (st : MLT) (filterFn : Manifest → Bool) :
    List (Option CompiledModule) :=
  let p := registerAll st (st.bundlesList.filter filterFn)
  let st2 := settleAll env p.1 p.2
  p.2.map (observe st2)

/-- The filter start uses: manifests whose load strategy is IMMEDIATELY. -/
def immediateFilter : Manifest → Bool :=
  fun m => decide (m.loadStrategy = ModuleLoadStrategy.immediately)

/-- start of the source: invoke the runner; only when its task settles
successfully does the bulk load of the IMMEDIATELY manifests begin; when the
runner fails, the returned promise rejects with its error and nothing is
loaded. -/
def start (env : Env) (st : MLT) : MLT × Except JsError Unit :=
  let st1 := { st with events := st.events ++ [Event.runnerInvoked] }
  match env.runnerResult with
  | Except.error e => (st1, Except.error e)
  | Except.ok _ => (bulkLoadBundles env st1 immediateFilter, Except.ok ())

/-- manuallyDefineBundle of the source, in its statement order: push the
manifest onto the list, publish the updated list, invoke the bundle's start
export when present, and only then check the compiled cache, throwing on a
duplicate name (so the earlier effects have already happened) and otherwise
inserting the bundle. -/
def manuallyDefineBundle (st : MLT) (manifest : Manifest) (bundle : CompiledModule) :
    MLT × Except JsError Unit :=
  let newList := st.bundlesList ++ [manifest]
  let st2 :=
    { st with
      bundlesList := newList
      published := st.published ++ [newList]
      events := st.events ++
        (match bundle.exports.start with
         | some t => [Event.startInvoked t]
         | none => []) }
  match st2.bundlesCache manifest.name with
  | some _ =>
    (st2, Except.error (JsError.genericError
      ("Manifest with name \"" ++ manifest.name ++ "\" already defined, break;")))
  | none =>
    ({ st2 with
        bundlesCache := fun k => if k = manifest.name then some bundle else st2.bundlesCache k },
     Except.ok ())

/-- The operations a host can interleave on one orchestrator.  compileStep
and postprocessStep expose the suspension point between the cache insertion
and the settlement, so operation sequences can interleave load calls inside
that window; settle is both phases at once. -/
inductive Op
| load (m : Manifest)
| compileStep (id : Nat)
| postprocessStep (id : Nat)
| settle (id : Nat)
| runStart
| bulk (filterFn : Manifest → Bool)
| manual (m : Manifest) (b : CompiledModule)

/-- One operation step. -/
def step (env : Env) (st : MLT) : Op → MLT
| Op.load m => (loadBundleByManifest st m).1
| Op.compileStep id => compilePhase env st id
| Op.postprocessStep id => postprocessPhase env st id
| Op.settle id => settleTask env st id
| Op.runStart => (start env st).1
| Op.bulk f => bulkLoadBundles env st f
| Op.manual m b => (manuallyDefineBundle st m b).1

/-- Run a sequence of operations. -/
def run (env : Env) (st : MLT) (ops : List Op) : MLT :=
  ops.foldl (step env) st

/-! Concrete scenario data used by witnesses and counterexamples below. -/

/-- A lazily loaded manifest named a. -/
def mA : Manifest := { name := "a", loadStrategy := ModuleLoadStrategy.lazy }

/-- Source text that assigns an exports surface carrying a start entry
point tagged sA. -/
def srcA : List Stmt := [Stmt.setExports { start := some "sA", data := "pa" }]

/-- The module srcA compiles to. -/
def modA : CompiledModule := { exports := { start := some "sA", data := "pa" } }

/-- Environment in which every step of the load of any manifest succeeds
with srcA as the fetched source. -/
def envOk : Env :=
  { preprocessorResult := fun _ => Except.ok ()
    urlFormatter := fun m => "u/" ++ m.name
    fetchResult := fun _ => Except.ok srcA
    postprocessorResult := fun _ _ => Except.ok ()
    dependencies := fun _ => none
    unknownDependencyResolver := none
    runnerResult := Except.ok () }

/-- Like envOk except the postprocessor fails. -/
def envPost : Env :=
  { envOk with postprocessorResult := fun _ _ => Except.error (JsError.genericError "boom") }

/-- Like envOk except retrieval fails with an http error. -/
def envFetchFail : Env :=
  { envOk with fetchResult := fun _ => Except.error (JsError.loadBundleError "Cant load bundle, http error 500") }

/-- State with an in-flight task (id 0) registered for a. -/
def stReg : MLT := (loadBundleByManifest initState mA).1

/-- State after a fully successful load of a: the module is cached. -/
def stCached : MLT := run envOk initState [Op.load mA, Op.settle 0]

/-- State after a load of a whose postprocessor failed: the task settled
absent yet the module is cached. -/
def stFailed : MLT := run envPost initState [Op.load mA, Op.settle 0]

/-- State inside the suspension window of the load of a under envPost: the
compile phase has written the module to the compiled cache, but the
postprocessor has not yet settled the load. -/
def stWindow : MLT := compilePhase envPost stReg 0

/-- State after a load of a whose retrieval failed: the task settled absent
and nothing is cached. -/
def stFetchFailed : MLT := run envFetchFail initState [Op.load mA, Op.settle 0]

/-- Number of settled outcomes in a bulk pass that are modules exposing a
start entry point with the given tag: the number of times the pass invokes
that start export. -/
def countStarts (t : String) (outs : List (Option CompiledModule)) : Nat :=
  (outs.filter (fun o =>
    decide (Option.bind o (fun mod => mod.exports.start) = some t))).length

/-- The dedup invariant of the orchestrator state: task ids are below the
fresh counter, every task is registered in loadersCache under the name of
its manifest, a loadStarted event exists exactly for registered names, a
pending task has not been retrieved or compiled yet, each name sees at most
one retrieval and one compilation, and an unregistered name has seen
neither. -/
structure LoaderInv (st : MLT) : Prop where
  idBound : ∀ i, st.nextId ≤ i → st.tasks i = none
  ownerReg : ∀ i m ts, st.tasks i = some (m, ts) → st.loaders m.name = some i
  loadCount : ∀ n, ecount st.events (Event.loadStarted n)
      = match st.loaders n with
        | some _ => 1
        | none => 0
  pendingFresh : ∀ i m, st.tasks i = some (m, TaskState.pending) →
      ecount st.events (Event.retrievalStarted m.name) = 0
      ∧ ecount st.events (Event.compileStarted m.name) = 0
  retrBound : ∀ n, ecount st.events (Event.retrievalStarted n) ≤ 1
  compBound : ∀ n, ecount st.events (Event.compileStarted n) ≤ 1
  unregNoEvt : ∀ n, st.loaders n = none →
      ecount st.events (Event.retrievalStarted n) = 0
      ∧ ecount st.events (Event.compileStarted n) = 0

/-! Theorems about the claims. -/

/-- Claim C3 (code_bug evidence): a source text that requires a dependency
absent from the dependency map, while the configured unknown resolver also
yields nothing, makes compileSource fail with CompileModuleError wrapping
the NoDependencyError message — not with the NoDependencyError itself,
because the try/catch around eval in compileSource also catches the error
require throws.  A caller of compileSource therefore cannot distinguish a
bad dependency from bad code by error type, contrary to the claim (and to
the catch annotation in loadBundleByManifest, which expects
NoDependencyError to arrive there). -/
theorem missingDependency_wrapped_as_compile_error :
    compileSource [Stmt.requireDep "react"] (fun _ => none) (some (fun _ => none))
      = Except.error (JsError.compileModuleError
          ("Cant compile module: " ++ "Dependency \"react\" does not provided by core application"))
    ∧ compileSource [Stmt.throwErr "SyntaxError"] (fun _ => none) (some (fun _ => none))
      = Except.error (JsError.compileModuleError ("Cant compile module: " ++ "SyntaxError")) :=
  ⟨rfl, rfl⟩

/-- Claim C4 (counterexample): with no unknown-dependency resolver
configured, a dependency absent from the map does not raise
NoDependencyError: require returns undefined, evaluation succeeds, and the
undefined value is exactly what the compiled code received. -/
theorem noResolver_silent_undefined :
    requireImpl (fun _ => none) none "x" = Except.ok none
    ∧ evalSource (requireImpl (fun _ => none) none) [Stmt.requireDep "x"] emptyExports []
        = Except.ok { exportsVal := emptyExports, received := [("x", none)] }
    ∧ compileSource [Stmt.requireDep "x"] (fun _ => none) none
        = Except.ok { exports := emptyExports } :=
  ⟨rfl, rfl, rfl⟩

/-- Claim C4 (amended): when the name is absent from the dependency map and
a configured resolver yields nothing, the lookup fails with
NoDependencyError naming the dependency; but when no resolver was
configured, the lookup silently returns the undefined dependency to the
compiled code. -/
theorem requireLookup_missingDependency_amended
    (dependencies : String → Option Dep) (resolver : String → Option Dep) (n : String)
    (habs : dependencies n = none) (hres : resolver n = none) :
    requireImpl dependencies (some resolver) n
      = Except.error (JsError.noDependencyError
          ("Dependency \"" ++ n ++ "\" does not provided by core application"))
    ∧ requireImpl dependencies none n = Except.ok none := by
  constructor <;> simp [requireImpl, habs, hres]

/-- Witness for the amended claim C4 at the dependency name x. -/
theorem requireLookup_missingDependency_amended_witness :
    requireImpl (fun _ => none) (some (fun _ => none)) "x"
      = Except.error (JsError.noDependencyError
          ("Dependency \"" ++ "x" ++ "\" does not provided by core application"))
    ∧ requireImpl (fun _ => none) none "x" = Except.ok none :=
  requireLookup_missingDependency_amended (fun _ => none) (fun _ => none) "x" rfl rfl

/-- Full settlement of a pending task produces exactly the outcome, events,
cache write, and unchanged loaders and counter that the declarative chain
summary attemptLoad describes: the two operational phases compose to the
whole chain plus the top-level catch. -/
theorem settleTask_pending (env : Env) (st : MLT) (id : Nat) (m : Manifest)
    (h : st.tasks id = some (m, TaskState.pending)) :
    (settleTask env st id).tasks id
        = some (m, TaskState.settled (settleOutcome (attemptLoad env m).result))
    ∧ (settleTask env st id).events
        = st.events ++ (attemptLoad env m).evs ++ settleErrEvents m (attemptLoad env m).result
    ∧ (settleTask env st id).bundlesCache m.name
        = (match (attemptLoad env m).cacheUpd with
           | some mod => some mod
           | none => st.bundlesCache m.name)
    ∧ (settleTask env st id).loaders = st.loaders
    ∧ (settleTask env st id).nextId = st.nextId := by
  have hc : compilePhase env st id =
      { st with
        events := st.events ++ (compileOutcome env m).1
        bundlesCache :=
          match (compileOutcome env m).2.1 with
          | some mod => fun k => if k = m.name then some mod else st.bundlesCache k
          | none => st.bundlesCache
        tasks := fun i =>
          if i = id then some (m, (compileOutcome env m).2.2) else st.tasks i } := by
    simp [compilePhase, h]
  unfold settleTask
  rw [hc]
  unfold attemptLoad compileOutcome
  cases hp : env.preprocessorResult m with
  | error e =>
    refine ⟨?_, ?_, ?_, ?_, ?_⟩ <;> simp [postprocessPhase, hp, settleOutcome, settleErrEvents]
  | ok u =>
    cases hf : env.fetchResult (env.urlFormatter m) with
    | error e =>
      refine ⟨?_, ?_, ?_, ?_, ?_⟩ <;>
        simp [postprocessPhase, hp, hf, settleOutcome, settleErrEvents]
    | ok source =>
      cases hcs : compileSource source env.dependencies env.unknownDependencyResolver with
      | error e =>
        refine ⟨?_, ?_, ?_, ?_, ?_⟩ <;>
          simp [postprocessPhase, hp, hf, hcs, settleOutcome, settleErrEvents]
      | ok mod =>
        cases hpp : env.postprocessorResult m mod with
        | ok v =>
          refine ⟨?_, ?_, ?_, ?_, ?_⟩ <;>
            simp [postprocessPhase, hp, hf, hcs, hpp, settleOutcome, settleErrEvents]
        | error e =>
          refine ⟨?_, ?_, ?_, ?_, ?_⟩ <;>
            simp [postprocessPhase, hp, hf, hcs, hpp, settleOutcome, settleErrEvents]

/-- Claim C2: whatever step of a managed load fails (the attempt result is
an error, covering preprocessor, retrieval, compile — including dependency
resolution — and postprocessor failures), the top-level catch settles the
task to an absent result rather than a rejection, and the console log
records the manifest name and the error message. -/
theorem loadFailure_contained (env : Env) (st : MLT) (id : Nat) (m : Manifest) (e : JsError)
    (htask : st.tasks id = some (m, TaskState.pending))
    (herr : (attemptLoad env m).result = Except.error e) :
    (settleTask env st id).tasks id = some (m, TaskState.settled none)
    ∧ Event.errorLogged ("Module: " ++ m.name ++ ". Error: " ++ JsError.message e)
        ∈ (settleTask env st id).events := by
  obtain ⟨ht, he, -, -, -⟩ := settleTask_pending env st id m htask
  rw [herr] at ht he
  constructor
  · exact ht
  · rw [he]
    simp [settleErrEvents]

/-- Witness for claim C2: the retrieval of a fails with an http error, the
task settles absent and the log carries the name and message. -/
theorem loadFailure_contained_witness :
    (settleTask envFetchFail stReg 0).tasks 0 = some (mA, TaskState.settled none)
    ∧ Event.errorLogged ("Module: " ++ mA.name ++ ". Error: "
        ++ JsError.message (JsError.loadBundleError "Cant load bundle, http error 500"))
        ∈ (settleTask envFetchFail stReg 0).events :=
  loadFailure_contained envFetchFail stReg 0 mA
    (JsError.loadBundleError "Cant load bundle, http error 500") rfl rfl

/-- Claim C9: when the postprocessor fails after a successful compile, the
module was already placed in the compiled cache and stays there although
the load's task settles absent: isBundleLoaded answers true and a later
load request returns the cached module — an outcome different from the
absent result the first caller observed. -/
theorem postprocessorFailure_leaves_module_cached (env : Env) (st : MLT) (id : Nat)
    (m : Manifest) (src : List Stmt) (mod : CompiledModule) (e : JsError)
    (htask : st.tasks id = some (m, TaskState.pending))
    (hpre : env.preprocessorResult m = Except.ok ())
    (hfetch : env.fetchResult (env.urlFormatter m) = Except.ok src)
    (hcomp : compileSource src env.dependencies env.unknownDependencyResolver = Except.ok mod)
    (hpost : env.postprocessorResult m mod = Except.error e) :
    (settleTask env st id).tasks id = some (m, TaskState.settled none)
    ∧ (settleTask env st id).bundlesCache m.name = some mod
    ∧ isBundleLoaded (settleTask env st id) m.name = true
    ∧ loadBundleByManifest (settleTask env st id) m
        = (settleTask env st id, LoadRef.resolved (some mod))
    ∧ some mod ≠ (none : Option CompiledModule) := by
  have ha : attemptLoad env m =
      { evs := [Event.retrievalStarted m.name, Event.compileStarted m.name,
                Event.moduleCached m.name]
        cacheUpd := some mod
        result := Except.error (JsError.postprocessorError "Postprocessor crashed") } := by
    simp [attemptLoad, hpre, hfetch, hcomp, hpost]
  obtain ⟨ht, -, hbc, -, -⟩ := settleTask_pending env st id m htask
  rw [ha] at ht hbc
  have hcache : (settleTask env st id).bundlesCache m.name = some mod := hbc
  refine ⟨ht, hcache, ?_, ?_, by simp⟩
  · simp [isBundleLoaded, hcache]
  · simp [loadBundleByManifest, hcache]

/-- Witness for claim C9 in the concrete postprocessor-failure scenario. -/
theorem postprocessorFailure_leaves_module_cached_witness :
    (settleTask envPost stReg 0).tasks 0 = some (mA, TaskState.settled none)
    ∧ (settleTask envPost stReg 0).bundlesCache mA.name = some modA
    ∧ isBundleLoaded (settleTask envPost stReg 0) mA.name = true
    ∧ loadBundleByManifest (settleTask envPost stReg 0) mA
        = (settleTask envPost stReg 0, LoadRef.resolved (some modA))
    ∧ some modA ≠ (none : Option CompiledModule) :=
  postprocessorFailure_leaves_module_cached envPost stReg 0 mA srcA modA
    (JsError.genericError "boom") rfl rfl rfl rfl rfl

/-- Claim C5 (counterexample): after the postprocessor-failure load of a,
the load has settled with the absent outcome (FAILED), yet a subsequent
load request for a returns the cached module — not the same settled
outcome. -/
theorem settledOutcome_not_stable_after_postprocessor_failure :
    stFailed.tasks 0 = some (mA, TaskState.settled none)
    ∧ (loadBundleByManifest stFailed mA).2 = LoadRef.resolved (some modA) :=
  ⟨rfl, rfl⟩

/-- Claim C5 (amended): a settled name is never retrieved or compiled
again — the state is returned unchanged: a name in the compiled cache
yields the cached module (even when, after a postprocessor failure, the
original load settled absent), and otherwise a name with a registered
loader task yields that same memoized task. -/
theorem settledLoad_no_refetch_amended :
    (∀ (st : MLT) (m : Manifest) (mod : CompiledModule),
        st.bundlesCache m.name = some mod →
        loadBundleByManifest st m = (st, LoadRef.resolved (some mod)))
    ∧ (∀ (st : MLT) (m : Manifest) (id : Nat),
        st.bundlesCache m.name = none → st.loaders m.name = some id →
        loadBundleByManifest st m = (st, LoadRef.task id)) := by
  constructor
  · intro st m mod h
    simp [loadBundleByManifest, h]
  · intro st m id h1 h2
    simp [loadBundleByManifest, h1, h2]

/-- Witness for the amended claim C5: the cached state returns the cached
module unchanged, and the retrieval-failed state returns the memoized
task. -/
theorem settledLoad_no_refetch_amended_witness :
    loadBundleByManifest stCached mA = (stCached, LoadRef.resolved (some modA))
    ∧ loadBundleByManifest stFetchFailed mA = (stFetchFailed, LoadRef.task 0) :=
  ⟨settledLoad_no_refetch_amended.1 stCached mA modA rfl,
   settledLoad_no_refetch_amended.2 stFetchFailed mA 0 rfl rfl⟩

/-- Claim C8: manually defining a bundle under a name that already has a
cached module fails with the duplicate-manifest error and leaves the cached
module untouched. -/
theorem manualDefine_duplicate_rejected (st : MLT) (m : Manifest) (b : CompiledModule)
    (mod0 : CompiledModule) (h : st.bundlesCache m.name = some mod0) :
    (manuallyDefineBundle st m b).2
      = Except.error (JsError.genericError
          ("Manifest with name \"" ++ m.name ++ "\" already defined, break;"))
    ∧ (manuallyDefineBundle st m b).1.bundlesCache m.name = some mod0 := by
  constructor <;> simp [manuallyDefineBundle, h]

/-- Witness for claim C8: redefining a after it is cached. -/
theorem manualDefine_duplicate_rejected_witness :
    (manuallyDefineBundle stCached mA modA).2
      = Except.error (JsError.genericError
          ("Manifest with name \"" ++ mA.name ++ "\" already defined, break;"))
    ∧ (manuallyDefineBundle stCached mA modA).1.bundlesCache mA.name = some modA :=
  manualDefine_duplicate_rejected stCached mA modA modA rfl

/-- Claim C10: manuallyDefineBundle is not atomic on a duplicate name —
before the error is thrown it has already appended the manifest to the
manifest list, published the updated list, and invoked the bundle's start
export when present. -/
theorem manualDefine_not_atomic (st : MLT) (m : Manifest) (b : CompiledModule)
    (mod0 : CompiledModule) (h : st.bundlesCache m.name = some mod0) :
    (manuallyDefineBundle st m b).1.bundlesList = st.bundlesList ++ [m]
    ∧ (manuallyDefineBundle st m b).1.published = st.published ++ [st.bundlesList ++ [m]]
    ∧ (manuallyDefineBundle st m b).1.events
        = st.events ++ (match b.exports.start with
                        | some t => [Event.startInvoked t]
                        | none => [])
    ∧ (manuallyDefineBundle st m b).2
        = Except.error (JsError.genericError
            ("Manifest with name \"" ++ m.name ++ "\" already defined, break;")) := by
  refine ⟨?_, ?_, ?_, ?_⟩ <;> simp [manuallyDefineBundle, h]

/-- Witness for claim C10: redefining a with a bundle exposing a start
export shows the list append, the publication and the start invocation all
happened despite the error. -/
theorem manualDefine_not_atomic_witness :
    (manuallyDefineBundle stFailed mA modA).1.bundlesList = stFailed.bundlesList ++ [mA]
    ∧ (manuallyDefineBundle stFailed mA modA).1.published
        = stFailed.published ++ [stFailed.bundlesList ++ [mA]]
    ∧ (manuallyDefineBundle stFailed mA modA).1.events
        = stFailed.events ++ (match modA.exports.start with
                              | some t => [Event.startInvoked t]
                              | none => [])
    ∧ (manuallyDefineBundle stFailed mA modA).2
        = Except.error (JsError.genericError
            ("Manifest with name \"" ++ mA.name ++ "\" already defined, break;")) :=
  manualDefine_not_atomic stFailed mA modA modA rfl

/-! Helper lemmas about event counting and about which events each
operation appends. -/

/-- Counting distributes over trace concatenation. -/
theorem ecount_append (a b : List Event) (e : Event) :
    ecount (a ++ b) e = ecount a e + ecount b e := by
  simp [ecount, List.filter_append]

/-- Count in a singleton trace. -/
theorem ecount_singleton (x e : Event) :
    ecount [x] e = if x = e then 1 else 0 := by
  by_cases h : x = e <;> simp [ecount, h]

/-- Appending a trace that does not contain the event leaves its count. -/
theorem ecount_append_zero (a b : List Event) (e : Event) (h : ecount b e = 0) :
    ecount (a ++ b) e = ecount a e := by
  rw [ecount_append, h, Nat.add_zero]

/-- loadBundleByManifest only ever appends a loadStarted event. -/
theorem loadCall_events_extend (st : MLT) (m : Manifest) :
    (loadBundleByManifest st m).1.events = st.events
    ∨ (loadBundleByManifest st m).1.events = st.events ++ [Event.loadStarted m.name] := by
  cases h1 : st.bundlesCache m.name with
  | some mod => exact Or.inl (by simp [loadBundleByManifest, h1])
  | none =>
    cases h2 : st.loaders m.name with
    | some id => exact Or.inl (by simp [loadBundleByManifest, h1, h2])
    | none => exact Or.inr (by simp [loadBundleByManifest, h1, h2])

/-- compilePhase appends some trace (it never rewrites history). -/
theorem compilePhase_events_extend (env : Env) (st : MLT) (id : Nat) :
    ∃ l, (compilePhase env st id).events = st.events ++ l := by
  cases h : st.tasks id with
  | none => exact ⟨[], by simp [compilePhase, h]⟩
  | some p =>
    obtain ⟨m, ts⟩ := p
    cases ts with
    | pending => exact ⟨(compileOutcome env m).1, by simp [compilePhase, h]⟩
    | postprocessing mod => exact ⟨[], by simp [compilePhase, h]⟩
    | settled o => exact ⟨[], by simp [compilePhase, h]⟩

/-- postprocessPhase appends some trace. -/
theorem postprocessPhase_events_extend (env : Env) (st : MLT) (id : Nat) :
    ∃ l, (postprocessPhase env st id).events = st.events ++ l := by
  cases h : st.tasks id with
  | none => exact ⟨[], by simp [postprocessPhase, h]⟩
  | some p =>
    obtain ⟨m, ts⟩ := p
    cases ts with
    | pending => exact ⟨[], by simp [postprocessPhase, h]⟩
    | settled o => exact ⟨[], by simp [postprocessPhase, h]⟩
    | postprocessing mod =>
      cases hr : env.postprocessorResult m mod with
      | ok u => exact ⟨[], by simp [postprocessPhase, h, hr]⟩
      | error e =>
        exact ⟨settleErrEvents m
            (Except.error (JsError.postprocessorError "Postprocessor crashed")),
          by simp [postprocessPhase, h, hr]⟩

/-- settleTask appends some trace (it never rewrites history). -/
theorem settleTask_events_extend (env : Env) (st : MLT) (id : Nat) :
    ∃ l, (settleTask env st id).events = st.events ++ l := by
  obtain ⟨l1, h1⟩ := compilePhase_events_extend env st id
  obtain ⟨l2, h2⟩ := postprocessPhase_events_extend env (compilePhase env st id) id
  refine ⟨l1 ++ l2, ?_⟩
  unfold settleTask
  rw [h2, h1, List.append_assoc]

/-- registerAll appends some trace. -/
theorem registerAll_events_extend :
    ∀ (ms : List Manifest) (st : MLT), ∃ l, (registerAll st ms).1.events = st.events ++ l := by
  intro ms
  induction ms with
  | nil => intro st; exact ⟨[], by simp [registerAll]⟩
  | cons m rest ih =>
    intro st
    obtain ⟨l2, h2⟩ := ih (loadBundleByManifest st m).1
    rcases loadCall_events_extend st m with h1 | h1
    · exact ⟨l2, by simp [registerAll, h2, h1]⟩
    · exact ⟨[Event.loadStarted m.name] ++ l2, by simp [registerAll, h2, h1]⟩

/-- settleAll appends some trace. -/
theorem settleAll_events_extend :
    ∀ (refs : List LoadRef) (env : Env) (st : MLT),
      ∃ l, (settleAll env st refs).events = st.events ++ l := by
  intro refs
  induction refs with
  | nil => intro env st; exact ⟨[], by simp [settleAll]⟩
  | cons r rest ih =>
    intro env st
    cases r with
    | resolved v => exact ih env st
    | task id =>
      obtain ⟨l1, h1⟩ := settleTask_events_extend env st id
      obtain ⟨l2, h2⟩ := ih env (settleTask env st id)
      exact ⟨l1 ++ l2, by simp [settleAll, h2, h1]⟩

/-- bulkLoadBundles appends some trace. -/
theorem bulk_events_extend (env : Env) (st : MLT) (f : Manifest → Bool) :
    ∃ l, (bulkLoadBundles env st f).events = st.events ++ l := by
  obtain ⟨l1, h1⟩ := registerAll_events_extend (st.bundlesList.filter f) st
  obtain ⟨l2, h2⟩ := settleAll_events_extend
    (registerAll st (st.bundlesList.filter f)).2 env (registerAll st (st.bundlesList.filter f)).1
  refine ⟨l1 ++ l2 ++ startTags ((registerAll st (st.bundlesList.filter f)).2.map
    (observe (settleAll env (registerAll st (st.bundlesList.filter f)).1
      (registerAll st (st.bundlesList.filter f)).2))), ?_⟩
  simp [bulkLoadBundles, invokeStarts, h2, h1]

/-- Claim C6: start appends the runner invocation as its first event, and
everything after it in the trace comes from the bulk load of the
IMMEDIATELY manifests, which runs only once the runner's task has settled
successfully; when the runner fails, nothing at all is loaded. -/
theorem start_runner_precedes_immediate_loads (env : Env) (st : MLT) :
    (start env st).1.events
      = st.events ++ Event.runnerInvoked ::
          (match env.runnerResult with
           | Except.ok _ =>
               ((bulkLoadBundles env { st with events := st.events ++ [Event.runnerInvoked] }
                   immediateFilter).events).drop (st.events.length + 1)
           | Except.error _ => []) := by
  cases h : env.runnerResult with
  | error e => simp [start, h]
  | ok u =>
    obtain ⟨l, hl⟩ := bulk_events_extend env
      { st with events := st.events ++ [Event.runnerInvoked] } immediateFilter
    simp only [start, h, hl]
    have hlen : (st.events ++ [Event.runnerInvoked]).length = st.events.length + 1 := by
      simp
    have hdrop : ((st.events ++ [Event.runnerInvoked]) ++ l).drop (st.events.length + 1) = l := by
      rw [← hlen, List.drop_left]
    simp only [List.append_assoc] at hdrop ⊢
    rw [hdrop]
    simp

/-- Count in a trace extended by one event at the front. -/
theorem ecount_cons (x : Event) (l : List Event) (e : Event) :
    ecount (x :: l) e = (if x = e then 1 else 0) + ecount l e := by
  by_cases h : x = e <;> simp [ecount, List.filter_cons, h, Nat.add_comm]

/-- The pre-catch chain of a load never invokes a start export. -/
theorem attemptLoad_no_startInvoked (env : Env) (m : Manifest) (t : String) :
    ecount (attemptLoad env m).evs (Event.startInvoked t) = 0 := by
  unfold attemptLoad
  repeat' split
  all_goals rfl

/-- The top-level catch log never invokes a start export. -/
theorem settleErrEvents_no_startInvoked (m : Manifest)
    (r : Except JsError CompiledModule) (t : String) :
    ecount (settleErrEvents m r) (Event.startInvoked t) = 0 := by
  cases r with
  | ok mod => rfl
  | error e => rfl

/-- loadBundleByManifest never invokes a start export. -/
theorem loadCall_startCount (st : MLT) (m : Manifest) (t : String) :
    ecount ((loadBundleByManifest st m).1.events) (Event.startInvoked t)
      = ecount st.events (Event.startInvoked t) := by
  rcases loadCall_events_extend st m with h | h
  · rw [h]
  · rw [h, ecount_append_zero]
    rfl

/-- The first-phase chain never invokes a start export. -/
theorem compileOutcome_no_startInvoked (env : Env) (m : Manifest) (t : String) :
    ecount (compileOutcome env m).1 (Event.startInvoked t) = 0 := by
  unfold compileOutcome
  repeat' split
  all_goals rfl

/-- compilePhase never invokes a start export. -/
theorem compilePhase_startCount (env : Env) (st : MLT) (id : Nat) (t : String) :
    ecount ((compilePhase env st id).events) (Event.startInvoked t)
      = ecount st.events (Event.startInvoked t) := by
  cases h : st.tasks id with
  | none => simp [compilePhase, h]
  | some p =>
    obtain ⟨m, ts⟩ := p
    cases ts with
    | pending =>
      simp only [compilePhase, h]
      rw [ecount_append_zero _ _ _ (compileOutcome_no_startInvoked env m t)]
    | postprocessing mod => simp [compilePhase, h]
    | settled o => simp [compilePhase, h]

/-- postprocessPhase never invokes a start export. -/
theorem postprocessPhase_startCount (env : Env) (st : MLT) (id : Nat) (t : String) :
    ecount ((postprocessPhase env st id).events) (Event.startInvoked t)
      = ecount st.events (Event.startInvoked t) := by
  cases h : st.tasks id with
  | none => simp [postprocessPhase, h]
  | some p =>
    obtain ⟨m, ts⟩ := p
    cases ts with
    | pending => simp [postprocessPhase, h]
    | settled o => simp [postprocessPhase, h]
    | postprocessing mod =>
      cases hr : env.postprocessorResult m mod with
      | ok u => simp [postprocessPhase, h, hr]
      | error e =>
        simp only [postprocessPhase, h, hr]
        rw [ecount_append_zero _ _ _ (settleErrEvents_no_startInvoked m _ t)]

/-- settleTask never invokes a start export. -/
theorem settleTask_startCount (env : Env) (st : MLT) (id : Nat) (t : String) :
    ecount ((settleTask env st id).events) (Event.startInvoked t)
      = ecount st.events (Event.startInvoked t) := by
  unfold settleTask
  rw [postprocessPhase_startCount, compilePhase_startCount]

/-- The registration phase of a bulk pass never invokes a start export. -/
theorem registerAll_startCount :
    ∀ (ms : List Manifest) (st : MLT) (t : String),
      ecount ((registerAll st ms).1.events) (Event.startInvoked t)
        = ecount st.events (Event.startInvoked t) := by
  intro ms
  induction ms with
  | nil => intro st t; rfl
  | cons m rest ih =>
    intro st t
    simp only [registerAll]
    rw [ih, loadCall_startCount]

/-- The settlement phase of a bulk pass never invokes a start export. -/
theorem settleAll_startCount :
    ∀ (refs : List LoadRef) (env : Env) (st : MLT) (t : String),
      ecount ((settleAll env st refs).events) (Event.startInvoked t)
        = ecount st.events (Event.startInvoked t) := by
  intro refs
  induction refs with
  | nil => intro env st t; rfl
  | cons r rest ih =>
    intro env st t
    cases r with
    | resolved v => exact ih env st t
    | task id =>
      simp only [settleAll]
      rw [ih, settleTask_startCount]

/-- The start invocations of the final phase, counted per tag, are exactly
the settled outcomes that are modules exposing that start tag. -/
theorem startTags_count :
    ∀ (outs : List (Option CompiledModule)) (t : String),
      ecount (startTags outs) (Event.startInvoked t) = countStarts t outs := by
  intro outs
  induction outs with
  | nil => intro t; rfl
  | cons o rest ih =>
    intro t
    cases o with
    | none =>
      have h1 : startTags (none :: rest) = startTags rest := by
        simp [startTags, List.filterMap_cons]
      have h2 : countStarts t (none :: rest) = countStarts t rest := by
        simp [countStarts, List.filter_cons]
      rw [h1, h2, ih t]
    | some mod =>
      cases hs : mod.exports.start with
      | none =>
        have h1 : startTags (some mod :: rest) = startTags rest := by
          simp [startTags, List.filterMap_cons, hs]
        have h2 : countStarts t (some mod :: rest) = countStarts t rest := by
          simp [countStarts, List.filter_cons, hs]
        rw [h1, h2, ih t]
      | some s =>
        have h1 : startTags (some mod :: rest) = Event.startInvoked s :: startTags rest := by
          simp [startTags, List.filterMap_cons, hs]
        have h2 : countStarts t (some mod :: rest)
            = (if s = t then 1 else 0) + countStarts t rest := by
          by_cases hst : s = t
          · simp [countStarts, List.filter_cons, hs, hst, Nat.add_comm]
          · simp [countStarts, List.filter_cons, hs, hst]
        have h3 : ((if Event.startInvoked s = Event.startInvoked t then 1 else 0) : Nat)
            = if s = t then 1 else 0 := by
          by_cases hst : s = t <;> simp [hst]
        rw [h1, ecount_cons, h3, ih t, h2]

/-- Claim C7 (counterexample): the module a, loaded on demand through
loadBundleByManifest and settled successfully, sits in the compiled cache
and exposes the start entry point sA, yet sA was never invoked — the start
convention is applied by the bulk passes only, so a loaded module can see
zero start invocations. -/
theorem onDemand_load_start_never_invoked :
    stCached.bundlesCache "a" = some modA
    ∧ modA.exports.start = some "sA"
    ∧ ecount stCached.events (Event.startInvoked "sA") = 0 :=
  ⟨rfl, rfl, rfl⟩

/-- Claim C7 (amended): start entry points are invoked only by the final
phase of a bulk activation pass: a single load and a single settlement
leave the start-invocation count unchanged, and one bulk pass adds, for
each tag, exactly one invocation per settled outcome of its filtered
manifests that is a module exposing that tag — hence once per pass, not
once per module lifetime: repeated passes invoke start again and loads
outside any pass never invoke it. -/
theorem start_invocations_characterization :
    (∀ (st : MLT) (m : Manifest) (t : String),
        ecount ((loadBundleByManifest st m).1.events) (Event.startInvoked t)
          = ecount st.events (Event.startInvoked t))
    ∧ (∀ (env : Env) (st : MLT) (id : Nat) (t : String),
        ecount ((settleTask env st id).events) (Event.startInvoked t)
          = ecount st.events (Event.startInvoked t))
    ∧ (∀ (env : Env) (st : MLT) (f : Manifest → Bool) (t : String),
        ecount ((bulkLoadBundles env st f).events) (Event.startInvoked t)
          = ecount st.events (Event.startInvoked t) + countStarts t (bulkOutcomes env st f)) := by
  refine ⟨loadCall_startCount, settleTask_startCount, ?_⟩
  intro env st f t
  simp only [bulkLoadBundles, bulkOutcomes, invokeStarts]
  rw [ecount_append, startTags_count, settleAll_startCount, registerAll_startCount]

/-! Invariant machinery for the dedup property. -/

/-- Count in the empty trace. -/
theorem ecount_nil (e : Event) : ecount [] e = 0 := rfl

/-- The pre-catch chain of a load emits no loadStarted event. -/
theorem attemptLoad_no_loadStarted (env : Env) (m : Manifest) (n : String) :
    ecount (attemptLoad env m).evs (Event.loadStarted n) = 0 := by
  unfold attemptLoad
  repeat' split
  all_goals rfl

/-- The pre-catch chain of a load retrieves only its own name. -/
theorem attemptLoad_retr_other (env : Env) (m : Manifest) (n : String) (h : n ≠ m.name) :
    ecount (attemptLoad env m).evs (Event.retrievalStarted n) = 0 := by
  unfold attemptLoad
  repeat' split
  all_goals simp [ecount_cons, ecount_nil, Ne.symm h]

/-- The pre-catch chain of a load retrieves its own name at most once. -/
theorem attemptLoad_retr_self (env : Env) (m : Manifest) :
    ecount (attemptLoad env m).evs (Event.retrievalStarted m.name) ≤ 1 := by
  unfold attemptLoad
  repeat' split
  all_goals simp [ecount_cons, ecount_nil]

/-- The pre-catch chain of a load compiles only its own name. -/
theorem attemptLoad_comp_other (env : Env) (m : Manifest) (n : String) (h : n ≠ m.name) :
    ecount (attemptLoad env m).evs (Event.compileStarted n) = 0 := by
  unfold attemptLoad
  repeat' split
  all_goals simp [ecount_cons, ecount_nil, Ne.symm h]

/-- The pre-catch chain of a load compiles its own name at most once. -/
theorem attemptLoad_comp_self (env : Env) (m : Manifest) :
    ecount (attemptLoad env m).evs (Event.compileStarted m.name) ≤ 1 := by
  unfold attemptLoad
  repeat' split
  all_goals simp [ecount_cons, ecount_nil]

/-- The catch log emits no loadStarted event. -/
theorem settleErrEvents_no_loadStarted (m : Manifest) (r : Except JsError CompiledModule)
    (n : String) : ecount (settleErrEvents m r) (Event.loadStarted n) = 0 := by
  cases r <;> rfl

/-- The catch log emits no retrievalStarted event. -/
theorem settleErrEvents_no_retr (m : Manifest) (r : Except JsError CompiledModule)
    (n : String) : ecount (settleErrEvents m r) (Event.retrievalStarted n) = 0 := by
  cases r <;> rfl

/-- The catch log emits no compileStarted event. -/
theorem settleErrEvents_no_comp (m : Manifest) (r : Except JsError CompiledModule)
    (n : String) : ecount (settleErrEvents m r) (Event.compileStarted n) = 0 := by
  cases r <;> rfl

/-- The invariant transfers along a state change that keeps the loaders
map, the task table, the fresh counter and the counts of the load,
retrieval and compile events. -/
theorem inv_transfer (st st' : MLT)
    (hl : st'.loaders = st.loaders) (ht : st'.tasks = st.tasks) (hn : st'.nextId = st.nextId)
    (hev : ∀ n, ecount st'.events (Event.loadStarted n) = ecount st.events (Event.loadStarted n)
      ∧ ecount st'.events (Event.retrievalStarted n) = ecount st.events (Event.retrievalStarted n)
      ∧ ecount st'.events (Event.compileStarted n) = ecount st.events (Event.compileStarted n))
    (h : LoaderInv st) : LoaderInv st' := by
  constructor
  · intro i hi
    rw [ht]
    exact h.idBound i (hn ▸ hi)
  · intro i m ts hts
    rw [hl]
    exact h.ownerReg i m ts (ht ▸ hts)
  · intro n
    rw [(hev n).1, hl]
    exact h.loadCount n
  · intro i m hts
    rw [(hev m.name).2.1, (hev m.name).2.2]
    exact h.pendingFresh i m (ht ▸ hts)
  · intro n
    rw [(hev n).2.1]
    exact h.retrBound n
  · intro n
    rw [(hev n).2.2]
    exact h.compBound n
  · intro n hx
    rw [(hev n).2.1, (hev n).2.2]
    exact h.unregNoEvt n (hl ▸ hx)

/-- The freshly constructed orchestrator satisfies the invariant. -/
theorem inv_init : LoaderInv initState :=
  { idBound := fun _ _ => rfl
    ownerReg := fun i m ts h => by simp [initState] at h
    loadCount := fun _ => rfl
    pendingFresh := fun i m h => by simp [initState] at h
    retrBound := fun _ => Nat.zero_le 1
    compBound := fun _ => Nat.zero_le 1
    unregNoEvt := fun _ _ => ⟨rfl, rfl⟩ }

/-- loadBundleByManifest preserves the invariant. -/
theorem inv_loadCall (st : MLT) (m : Manifest) (h : LoaderInv st) :
    LoaderInv (loadBundleByManifest st m).1 := by
  cases h1 : st.bundlesCache m.name with
  | some mod => simpa [loadBundleByManifest, h1] using h
  | none =>
    cases h2 : st.loaders m.name with
    | some id => simpa [loadBundleByManifest, h1, h2] using h
    | none =>
      have hreg : (loadBundleByManifest st m).1 =
          { st with
            loaders := fun k => if k = m.name then some st.nextId else st.loaders k
            tasks := fun i => if i = st.nextId then some (m, TaskState.pending) else st.tasks i
            nextId := st.nextId + 1
            events := st.events ++ [Event.loadStarted m.name] } := by
        simp [loadBundleByManifest, h1, h2]
      rw [hreg]
      constructor
      · intro i hi
        dsimp only at hi ⊢
        rw [if_neg (by omega : ¬ i = st.nextId)]
        exact h.idBound i (by omega)
      · intro i m' ts hts
        dsimp only at hts ⊢
        by_cases hi : i = st.nextId
        · rw [if_pos hi] at hts
          simp only [Option.some.injEq, Prod.mk.injEq] at hts
          obtain ⟨hm, -⟩ := hts
          rw [← hm, if_pos rfl, hi]
        · rw [if_neg hi] at hts
          have hold := h.ownerReg i m' ts hts
          have hnm : ¬ m'.name = m.name := by
            intro he
            rw [he, h2] at hold
            exact Option.noConfusion hold
          rw [if_neg hnm]
          exact hold
      · intro n
        dsimp only
        by_cases hn : n = m.name
        · subst hn
          have h0 : ecount st.events (Event.loadStarted m.name) = 0 := by
            have h3 := h.loadCount m.name
            rw [h2] at h3
            exact h3
          rw [if_pos rfl, ecount_append, h0, ecount_singleton, if_pos rfl]
        · have hz : ecount [Event.loadStarted m.name] (Event.loadStarted n) = 0 := by
            rw [ecount_singleton, if_neg]
            intro he
            injection he with hx
            exact hn hx.symm
          rw [if_neg hn, ecount_append_zero _ _ _ hz]
          exact h.loadCount n
      · intro i m' hts
        dsimp only at hts
        have hcore : ecount st.events (Event.retrievalStarted m'.name) = 0
            ∧ ecount st.events (Event.compileStarted m'.name) = 0 := by
          by_cases hi : i = st.nextId
          · rw [if_pos hi] at hts
            simp only [Option.some.injEq, Prod.mk.injEq] at hts
            obtain ⟨hm, -⟩ := hts
            rw [← hm]
            exact h.unregNoEvt m.name h2
          · rw [if_neg hi] at hts
            exact h.pendingFresh i m' hts
        constructor
        · rw [ecount_append_zero _ _ _
            (rfl : ecount [Event.loadStarted m.name] (Event.retrievalStarted m'.name) = 0)]
          exact hcore.1
        · rw [ecount_append_zero _ _ _
            (rfl : ecount [Event.loadStarted m.name] (Event.compileStarted m'.name) = 0)]
          exact hcore.2
      · intro n
        rw [ecount_append_zero _ _ _
          (rfl : ecount [Event.loadStarted m.name] (Event.retrievalStarted n) = 0)]
        exact h.retrBound n
      · intro n
        rw [ecount_append_zero _ _ _
          (rfl : ecount [Event.loadStarted m.name] (Event.compileStarted n) = 0)]
        exact h.compBound n
      · intro n hx
        dsimp only at hx
        by_cases hn : n = m.name
        · rw [if_pos hn] at hx
          exact Option.noConfusion hx
        · rw [if_neg hn] at hx
          constructor
          · rw [ecount_append_zero _ _ _
              (rfl : ecount [Event.loadStarted m.name] (Event.retrievalStarted n) = 0)]
            exact (h.unregNoEvt n hx).1
          · rw [ecount_append_zero _ _ _
              (rfl : ecount [Event.loadStarted m.name] (Event.compileStarted n) = 0)]
            exact (h.unregNoEvt n hx).2

/-- The first-phase chain emits no loadStarted event. -/
theorem compileOutcome_no_loadStarted (env : Env) (m : Manifest) (n : String) :
    ecount (compileOutcome env m).1 (Event.loadStarted n) = 0 := by
  unfold compileOutcome
  repeat' split
  all_goals rfl

/-- The first-phase chain retrieves only its own name. -/
theorem compileOutcome_retr_other (env : Env) (m : Manifest) (n : String) (h : n ≠ m.name) :
    ecount (compileOutcome env m).1 (Event.retrievalStarted n) = 0 := by
  unfold compileOutcome
  repeat' split
  all_goals simp [settleErrEvents, ecount_cons, ecount_nil, Ne.symm h]

/-- The first-phase chain retrieves its own name at most once. -/
theorem compileOutcome_retr_self (env : Env) (m : Manifest) :
    ecount (compileOutcome env m).1 (Event.retrievalStarted m.name) ≤ 1 := by
  unfold compileOutcome
  repeat' split
  all_goals simp [settleErrEvents, ecount_cons, ecount_nil]

/-- The first-phase chain compiles only its own name. -/
theorem compileOutcome_comp_other (env : Env) (m : Manifest) (n : String) (h : n ≠ m.name) :
    ecount (compileOutcome env m).1 (Event.compileStarted n) = 0 := by
  unfold compileOutcome
  repeat' split
  all_goals simp [settleErrEvents, ecount_cons, ecount_nil, Ne.symm h]

/-- The first-phase chain compiles its own name at most once. -/
theorem compileOutcome_comp_self (env : Env) (m : Manifest) :
    ecount (compileOutcome env m).1 (Event.compileStarted m.name) ≤ 1 := by
  unfold compileOutcome
  repeat' split
  all_goals simp [settleErrEvents, ecount_cons, ecount_nil]

/-- The first phase never leaves a task pending: it settles it or puts it
into the postprocessing window. -/
theorem compileOutcome_not_pending (env : Env) (m : Manifest) :
    (compileOutcome env m).2.2 ≠ TaskState.pending := by
  unfold compileOutcome
  repeat' split
  all_goals simp

/-- compilePhase preserves the invariant. -/
theorem inv_compilePhase (env : Env) (st : MLT) (id : Nat) (h : LoaderInv st) :
    LoaderInv (compilePhase env st id) := by
  cases htask : st.tasks id with
  | none => simpa [compilePhase, htask] using h
  | some p =>
    obtain ⟨m, ts⟩ := p
    cases ts with
    | postprocessing mod => simpa [compilePhase, htask] using h
    | settled o => simpa [compilePhase, htask] using h
    | pending =>
      have hloaders : st.loaders m.name = some id := h.ownerReg id m TaskState.pending htask
      have hfresh := h.pendingFresh id m htask
      have hphase : compilePhase env st id =
          { st with
            events := st.events ++ (compileOutcome env m).1
            bundlesCache :=
              match (compileOutcome env m).2.1 with
              | some mod => fun k => if k = m.name then some mod else st.bundlesCache k
              | none => st.bundlesCache
            tasks := fun i =>
              if i = id then some (m, (compileOutcome env m).2.2) else st.tasks i } := by
        simp [compilePhase, htask]
      rw [hphase]
      constructor
      · intro i hi
        dsimp only at hi ⊢
        rw [if_neg ?_]
        · exact h.idBound i hi
        · intro he
          rw [he] at hi
          have h5 := h.idBound id hi
          rw [htask] at h5
          exact Option.noConfusion h5
      · intro i m' ts' hts
        dsimp only at hts ⊢
        by_cases hi : i = id
        · rw [if_pos hi] at hts
          simp only [Option.some.injEq, Prod.mk.injEq] at hts
          obtain ⟨hm, -⟩ := hts
          rw [← hm, hloaders, hi]
        · rw [if_neg hi] at hts
          exact h.ownerReg i m' ts' hts
      · intro n
        dsimp only
        rw [ecount_append_zero _ _ _ (compileOutcome_no_loadStarted env m n)]
        exact h.loadCount n
      · intro i m' hts
        dsimp only at hts ⊢
        by_cases hi : i = id
        · rw [if_pos hi] at hts
          simp only [Option.some.injEq, Prod.mk.injEq] at hts
          exact absurd hts.2 (fun hc => compileOutcome_not_pending env m hc)
        · rw [if_neg hi] at hts
          have hold := h.pendingFresh i m' hts
          have hnm : m'.name ≠ m.name := by
            intro he
            have h5 := h.ownerReg i m' TaskState.pending hts
            rw [he, hloaders] at h5
            injection h5 with h6
            exact hi h6.symm
          constructor
          · rw [ecount_append_zero _ _ _ (compileOutcome_retr_other env m m'.name hnm)]
            exact hold.1
          · rw [ecount_append_zero _ _ _ (compileOutcome_comp_other env m m'.name hnm)]
            exact hold.2
      · intro n
        dsimp only
        rw [ecount_append]
        by_cases hn : n = m.name
        · subst hn
          rw [hfresh.1]
          simpa using compileOutcome_retr_self env m
        · rw [compileOutcome_retr_other env m n hn]
          simpa using h.retrBound n
      · intro n
        dsimp only
        rw [ecount_append]
        by_cases hn : n = m.name
        · subst hn
          rw [hfresh.2]
          simpa using compileOutcome_comp_self env m
        · rw [compileOutcome_comp_other env m n hn]
          simpa using h.compBound n
      · intro n hx
        dsimp only at hx ⊢
        have hnm : n ≠ m.name := by
          intro he
          rw [he, hloaders] at hx
          exact Option.noConfusion hx
        constructor
        · rw [ecount_append_zero _ _ _ (compileOutcome_retr_other env m n hnm)]
          exact (h.unregNoEvt n hx).1
        · rw [ecount_append_zero _ _ _ (compileOutcome_comp_other env m n hnm)]
          exact (h.unregNoEvt n hx).2

/-- postprocessPhase preserves the invariant. -/
theorem inv_postprocessPhase (env : Env) (st : MLT) (id : Nat) (h : LoaderInv st) :
    LoaderInv (postprocessPhase env st id) := by
  cases htask : st.tasks id with
  | none => simpa [postprocessPhase, htask] using h
  | some p =>
    obtain ⟨m, ts⟩ := p
    cases ts with
    | pending => simpa [postprocessPhase, htask] using h
    | settled o => simpa [postprocessPhase, htask] using h
    | postprocessing mod =>
      have hloaders : st.loaders m.name = some id :=
        h.ownerReg id m (TaskState.postprocessing mod) htask
      cases hr : env.postprocessorResult m mod with
      | ok u =>
        have hphase : postprocessPhase env st id =
            { st with tasks := fun i =>
                if i = id then some (m, TaskState.settled (some mod)) else st.tasks i } := by
          simp [postprocessPhase, htask, hr]
        rw [hphase]
        constructor
        · intro i hi
          dsimp only at hi ⊢
          rw [if_neg ?_]
          · exact h.idBound i hi
          · intro he
            rw [he] at hi
            have h5 := h.idBound id hi
            rw [htask] at h5
            exact Option.noConfusion h5
        · intro i m' ts' hts
          dsimp only at hts ⊢
          by_cases hi : i = id
          · rw [if_pos hi] at hts
            simp only [Option.some.injEq, Prod.mk.injEq] at hts
            obtain ⟨hm, -⟩ := hts
            rw [← hm, hloaders, hi]
          · rw [if_neg hi] at hts
            exact h.ownerReg i m' ts' hts
        · intro n
          exact h.loadCount n
        · intro i m' hts
          dsimp only at hts
          by_cases hi : i = id
          · rw [if_pos hi] at hts
            simp only [Option.some.injEq, Prod.mk.injEq] at hts
            exact absurd hts.2 (fun hc => TaskState.noConfusion hc)
          · rw [if_neg hi] at hts
            exact h.pendingFresh i m' hts
        · intro n
          exact h.retrBound n
        · intro n
          exact h.compBound n
        · intro n hx
          exact h.unregNoEvt n hx
      | error e =>
        have hphase : postprocessPhase env st id =
            { st with
              events := st.events ++ settleErrEvents m
                (Except.error (JsError.postprocessorError "Postprocessor crashed"))
              tasks := fun i =>
                if i = id then some (m, TaskState.settled none) else st.tasks i } := by
          simp [postprocessPhase, htask, hr]
        rw [hphase]
        constructor
        · intro i hi
          dsimp only at hi ⊢
          rw [if_neg ?_]
          · exact h.idBound i hi
          · intro he
            rw [he] at hi
            have h5 := h.idBound id hi
            rw [htask] at h5
            exact Option.noConfusion h5
        · intro i m' ts' hts
          dsimp only at hts ⊢
          by_cases hi : i = id
          · rw [if_pos hi] at hts
            simp only [Option.some.injEq, Prod.mk.injEq] at hts
            obtain ⟨hm, -⟩ := hts
            rw [← hm, hloaders, hi]
          · rw [if_neg hi] at hts
            exact h.ownerReg i m' ts' hts
        · intro n
          dsimp only
          rw [ecount_append_zero _ _ _ (settleErrEvents_no_loadStarted m _ n)]
          exact h.loadCount n
        · intro i m' hts
          dsimp only at hts ⊢
          by_cases hi : i = id
          · rw [if_pos hi] at hts
            simp only [Option.some.injEq, Prod.mk.injEq] at hts
            exact absurd hts.2 (fun hc => TaskState.noConfusion hc)
          · rw [if_neg hi] at hts
            have hold := h.pendingFresh i m' hts
            constructor
            · rw [ecount_append_zero _ _ _ (settleErrEvents_no_retr m _ m'.name)]
              exact hold.1
            · rw [ecount_append_zero _ _ _ (settleErrEvents_no_comp m _ m'.name)]
              exact hold.2
        · intro n
          dsimp only
          rw [ecount_append_zero _ _ _ (settleErrEvents_no_retr m _ n)]
          exact h.retrBound n
        · intro n
          dsimp only
          rw [ecount_append_zero _ _ _ (settleErrEvents_no_comp m _ n)]
          exact h.compBound n
        · intro n hx
          dsimp only at hx ⊢
          constructor
          · rw [ecount_append_zero _ _ _ (settleErrEvents_no_retr m _ n)]
            exact (h.unregNoEvt n hx).1
          · rw [ecount_append_zero _ _ _ (settleErrEvents_no_comp m _ n)]
            exact (h.unregNoEvt n hx).2

/-- settleTask preserves the invariant. -/
theorem inv_settle (env : Env) (st : MLT) (id : Nat) (h : LoaderInv st) :
    LoaderInv (settleTask env st id) :=
  inv_postprocessPhase env (compilePhase env st id) id (inv_compilePhase env st id h)

/-- startTags contains only startInvoked events. -/
theorem startTags_count_other (outs : List (Option CompiledModule)) (e : Event)
    (he : ∀ t, e ≠ Event.startInvoked t) : ecount (startTags outs) e = 0 := by
  induction outs with
  | nil => rfl
  | cons o rest ih =>
    cases o with
    | none =>
      rw [show startTags (none :: rest) = startTags rest from by
        simp [startTags, List.filterMap_cons]]
      exact ih
    | some mod =>
      cases hs : mod.exports.start with
      | none =>
        rw [show startTags (some mod :: rest) = startTags rest from by
          simp [startTags, List.filterMap_cons, hs]]
        exact ih
      | some t =>
        rw [show startTags (some mod :: rest) = Event.startInvoked t :: startTags rest from by
          simp [startTags, List.filterMap_cons, hs],
          ecount_cons, if_neg (Ne.symm (he t)), Nat.zero_add, ih]

/-- manuallyDefineBundle preserves the invariant. -/
theorem inv_manual (st : MLT) (m : Manifest) (b : CompiledModule) (h : LoaderInv st) :
    LoaderInv (manuallyDefineBundle st m b).1 := by
  have hl : (manuallyDefineBundle st m b).1.loaders = st.loaders := by
    cases hc : st.bundlesCache m.name <;> simp [manuallyDefineBundle, hc]
  have ht : (manuallyDefineBundle st m b).1.tasks = st.tasks := by
    cases hc : st.bundlesCache m.name <;> simp [manuallyDefineBundle, hc]
  have hn : (manuallyDefineBundle st m b).1.nextId = st.nextId := by
    cases hc : st.bundlesCache m.name <;> simp [manuallyDefineBundle, hc]
  have he : (manuallyDefineBundle st m b).1.events
      = st.events ++ (match b.exports.start with
                      | some t => [Event.startInvoked t]
                      | none => []) := by
    cases hc : st.bundlesCache m.name <;> cases hb : b.exports.start <;>
      simp [manuallyDefineBundle, hc, hb]
  refine inv_transfer st (manuallyDefineBundle st m b).1 hl ht hn ?_ h
  intro n
  rw [he]
  have hz : ∀ e : Event, (∀ t, e ≠ Event.startInvoked t) →
      ecount (match b.exports.start with
              | some t => [Event.startInvoked t]
              | none => []) e = 0 := by
    intro e hee
    cases b.exports.start with
    | none => rfl
    | some t =>
      rw [ecount_singleton, if_neg (Ne.symm (hee t))]
  refine ⟨?_, ?_, ?_⟩ <;>
    rw [ecount_append_zero _ _ _ (hz _ (fun t hc => Event.noConfusion hc))]

/-- The registration phase preserves the invariant. -/
theorem inv_registerAll :
    ∀ (ms : List Manifest) (st : MLT), LoaderInv st → LoaderInv (registerAll st ms).1 := by
  intro ms
  induction ms with
  | nil => intro st h; exact h
  | cons m rest ih =>
    intro st h
    exact ih _ (inv_loadCall st m h)

/-- The settlement phase preserves the invariant. -/
theorem inv_settleAll :
    ∀ (refs : List LoadRef) (env : Env) (st : MLT),
      LoaderInv st → LoaderInv (settleAll env st refs) := by
  intro refs
  induction refs with
  | nil => intro env st h; exact h
  | cons r rest ih =>
    intro env st h
    cases r with
    | resolved v => exact ih env st h
    | task id => exact ih env _ (inv_settle env st id h)

/-- The start-invocation phase preserves the invariant. -/
theorem inv_invokeStarts (st : MLT) (outs : List (Option CompiledModule)) (h : LoaderInv st) :
    LoaderInv (invokeStarts st outs) := by
  refine inv_transfer st _ rfl rfl rfl ?_ h
  intro n
  refine ⟨?_, ?_, ?_⟩
  · dsimp only [invokeStarts]
    rw [ecount_append_zero _ _ _
      (startTags_count_other outs (Event.loadStarted n) (fun t hc => Event.noConfusion hc))]
  · dsimp only [invokeStarts]
    rw [ecount_append_zero _ _ _
      (startTags_count_other outs (Event.retrievalStarted n) (fun t hc => Event.noConfusion hc))]
  · dsimp only [invokeStarts]
    rw [ecount_append_zero _ _ _
      (startTags_count_other outs (Event.compileStarted n) (fun t hc => Event.noConfusion hc))]

/-- A bulk pass preserves the invariant. -/
theorem inv_bulk (env : Env) (st : MLT) (f : Manifest → Bool) (h : LoaderInv st) :
    LoaderInv (bulkLoadBundles env st f) :=
  inv_invokeStarts _ _ (inv_settleAll _ env _ (inv_registerAll _ st h))

/-- start preserves the invariant. -/
theorem inv_start (env : Env) (st : MLT) (h : LoaderInv st) : LoaderInv (start env st).1 := by
  have h1 : LoaderInv { st with events := st.events ++ [Event.runnerInvoked] } := by
    refine inv_transfer st _ rfl rfl rfl ?_ h
    intro n
    refine ⟨?_, ?_, ?_⟩
    · dsimp only
      rw [ecount_append_zero _ _ _
        (rfl : ecount [Event.runnerInvoked] (Event.loadStarted n) = 0)]
    · dsimp only
      rw [ecount_append_zero _ _ _
        (rfl : ecount [Event.runnerInvoked] (Event.retrievalStarted n) = 0)]
    · dsimp only
      rw [ecount_append_zero _ _ _
        (rfl : ecount [Event.runnerInvoked] (Event.compileStarted n) = 0)]
  cases hr : env.runnerResult with
  | error e => simpa [start, hr] using h1
  | ok u =>
    have h2 := inv_bulk env { st with events := st.events ++ [Event.runnerInvoked] }
      immediateFilter h1
    simpa [start, hr] using h2

/-- Any single operation preserves the invariant. -/
theorem inv_step (env : Env) (st : MLT) (op : Op) (h : LoaderInv st) :
    LoaderInv (step env st op) := by
  cases op with
  | load m => exact inv_loadCall st m h
  | compileStep id => exact inv_compilePhase env st id h
  | postprocessStep id => exact inv_postprocessPhase env st id h
  | settle id => exact inv_settle env st id h
  | runStart => exact inv_start env st h
  | bulk f => exact inv_bulk env st f h
  | manual m b => exact inv_manual st m b h

/-- Any operation sequence preserves the invariant. -/
theorem inv_run :
    ∀ (ops : List Op) (env : Env) (st : MLT), LoaderInv st → LoaderInv (run env st ops) := by
  intro ops
  induction ops with
  | nil => intro env st h; exact h
  | cons op rest ih =>
    intro env st h
    exact ih env (step env st op) (inv_step env st op h)

/-- Claim C1 (counterexample): the load of a under envPost has registered
task 0 and run its compile phase, writing the module into the compiled
cache; the load has not settled (the postprocessor is still outstanding),
yet a second load call for a hits the cache branch and receives a fresh
resolved promise carrying the module — not the recorded in-flight task 0 —
and when the postprocessor then fails, the first caller's task settles
absent: two concurrent pre-settlement callers, different settled
outcomes. -/
theorem inflight_dedup_window_counterexample :
    stReg.loaders "a" = some 0
    ∧ stWindow.tasks 0 = some (mA, TaskState.postprocessing modA)
    ∧ (loadBundleByManifest stWindow mA).2 = LoadRef.resolved (some modA)
    ∧ LoadRef.resolved (some modA) ≠ LoadRef.task 0
    ∧ (postprocessPhase envPost stWindow 0).tasks 0 = some (mA, TaskState.settled none)
    ∧ some modA ≠ (none : Option CompiledModule) := by
  refine ⟨rfl, rfl, rfl, ?_, rfl, ?_⟩ <;> decide

/-- Claim C1 (amended): as long as the name is not yet in the compiled
cache, a load request for a name with a registered in-flight task returns
exactly that recorded task and leaves the state untouched — callers
arriving before the cache insertion share one task and one settled
outcome — and over every operation sequence from a fresh orchestrator
(including sequences interleaving load calls inside the window between the
cache insertion and the postprocessor's settlement) each name sees at most
one task registration, at most one retrieval and at most one compilation.
Once the module is cached, a pre-settlement caller instead receives a fresh
resolved promise carrying the cached module, and on postprocessor failure
observes a different settled outcome than the first caller (see the
counterexample). -/
theorem loadDedup_atMostOnce_amended :
    (∀ (st : MLT) (m : Manifest) (id : Nat),
        st.bundlesCache m.name = none → st.loaders m.name = some id →
        loadBundleByManifest st m = (st, LoadRef.task id))
    ∧ (∀ (env : Env) (ops : List Op) (n : String),
        ecount ((run env initState ops).events) (Event.loadStarted n) ≤ 1
        ∧ ecount ((run env initState ops).events) (Event.retrievalStarted n) ≤ 1
        ∧ ecount ((run env initState ops).events) (Event.compileStarted n) ≤ 1) := by
  constructor
  · intro st m id h1 h2
    simp [loadBundleByManifest, h1, h2]
  · intro env ops n
    have hinv := inv_run ops env initState inv_init
    refine ⟨?_, hinv.retrBound n, hinv.compBound n⟩
    rw [hinv.loadCount n]
    cases (run env initState ops).loaders n <;> simp

/-- Witness for the amended claim C1: the second load call for a returns
the task the first call registered, and a run that loads a, runs its
compile phase, loads a again inside the window and then settles it sees at
most one registration, retrieval and compilation of a. -/
theorem loadDedup_atMostOnce_amended_witness :
    loadBundleByManifest stReg mA = (stReg, LoadRef.task 0)
    ∧ (ecount ((run envPost initState
          [Op.load mA, Op.compileStep 0, Op.load mA, Op.postprocessStep 0]).events)
          (Event.loadStarted "a") ≤ 1
       ∧ ecount ((run envPost initState
          [Op.load mA, Op.compileStep 0, Op.load mA, Op.postprocessStep 0]).events)
          (Event.retrievalStarted "a") ≤ 1
       ∧ ecount ((run envPost initState
          [Op.load mA, Op.compileStep 0, Op.load mA, Op.postprocessStep 0]).events)
          (Event.compileStarted "a") ≤ 1) :=
  ⟨loadDedup_atMostOnce_amended.1 stReg mA 0 rfl rfl,
   loadDedup_atMostOnce_amended.2 envPost
     [Op.load mA, Op.compileStep 0, Op.load mA, Op.postprocessStep 0] "a"⟩

end Mlt
